import Mathlib

/-!
A verification development for the nvim-rs repository: a shallow embedding of
its runtime value-marshalling layer (crate nvim_client_api) and of its binding
generator (crate api_gen), together with theorems about the properties the
specification states.
-/

set_option maxHeartbeats 1000000

namespace NvimRs

/-- The dynamic wire value exchanged over the msgpack-rpc transport
(rmpv::Value as this repository uses it).  Float payloads are carried as
their raw 64 bits; they are never inspected by this repository's code. -/
inductive Value where
  | nil : Value
  | boolean (b : Bool) : Value
  | integer (n : Int) : Value
  | f64 (bits : UInt64) : Value
  | str (s : String) : Value
  | bin (b : List UInt8) : Value
  | array (l : List Value) : Value
  | map (m : List (Value × Value)) : Value
  | ext (code : Int) (data : List UInt8) : Value

/-- The runtime error enum of nvim_client_api (src/lib.rs, `enum Error`).
The io::Error payload of IoError is never inspected and is dropped. -/
inductive Error where
  | IoError : Error
  | NvimReturnedError (v : Value) : Error
  | UnexpectedReturnType (v : Value) : Error
  | ConnectionClosed : Error

/-- A 64-bit signed integer: the Rust type i64. -/
def I64 : Type := { n : Int // -(2 ^ 63) ≤ n ∧ n < 2 ^ 63 }

/-- rmpv's Value::as_i64: Some for an Integer payload representable as i64,
None otherwise. -/
def Value.as_i64 : Value → Option I64
  | .integer n => if h : -(2 ^ 63) ≤ n ∧ n < 2 ^ 63 then some ⟨n, h⟩ else none
  | _ => none

/-- The universe of return types for which nvim_client_api implements
FromValue: the unit type, bool, Value itself, String, i64, the Map wrapper
(an association list of Value pairs), Vec of an inner FromValue type, a pair
of FromValue types, and the generated opaque handle wrappers
(Buffer/Window/Tabpage, all produced by the nvim_type! macro). -/
inductive RetTy where
  | unit : RetTy
  | bool : RetTy
  | value : RetTy
  | string : RetTy
  | i64 : RetTy
  | map : RetTy
  | vec (t : RetTy) : RetTy
  | pair (a b : RetTy) : RetTy
  | handle : RetTy

/-- The Rust type each RetTy stands for.  A handle wrapper stores the borrowed
client reference plus its `data: Value`; since every value in one run shares
the single client, a wrapper is determined by its data field, which is what we
carry. -/
def interp : RetTy → Type
  | .unit => Unit
  | .bool => Bool
  | .value => Value
  | .string => String
  | .i64 => I64
  | .map => List (Value × Value)
  | .vec t => List (interp t)
  | .pair a b => interp a × interp b
  | .handle => Value

mutual

/-- FromValue::from_value of nvim_client_api, one equation per impl.
Scalars demand an exact tag match and otherwise return
Error::UnexpectedReturnType carrying the offending value; the Value impl is a
passthrough; the Vec impl demands an Array and decodes elements in order; the
pair impl demands an Array of length exactly 2; the Map impl demands a Map tag
and copies the pairs (the String impl's `s.to_string()` on the owned String
payload is a clone, hence the identity here); the nvim_type! handle impl
always succeeds, storing the value unchanged. -/
def from_value : (t : RetTy) → Value → Except Error (interp t)
  | .unit, v =>
    match v with
    | .nil => .ok ()
    | v => .error (.UnexpectedReturnType v)
  | .bool, v =>
    match v with
    | .boolean b => .ok b
    | v => .error (.UnexpectedReturnType v)
  | .value, v => .ok v
  | .string, v =>
    match v with
    | .str s => .ok s
    | v => .error (.UnexpectedReturnType v)
  | .i64, v =>
    match v.as_i64 with
    | some i => .ok i
    | none => .error (.UnexpectedReturnType v)
  | .map, v =>
    match v with
    | .map m => .ok m
    | v => .error (.UnexpectedReturnType v)
  | .vec t, v =>
    match v with
    | .array a => from_value_list t a
    | v => .error (.UnexpectedReturnType v)
  | .pair a b, v =>
    match v with
    | .array [x, y] => do
      let xa ← from_value a x
      let yb ← from_value b y
      .ok (xa, yb)
    | v => .error (.UnexpectedReturnType v)
  | .handle, v => .ok v

/-- The element loop of the Vec impl: `a.into_iter().map(from_value).collect
::<Result<Vec<_>, Error>>()` — decode in order, stop at the first error. -/
def from_value_list (t : RetTy) : List Value → Except Error (List (interp t))
  | [] => .ok []
  | x :: xs => do
    let y ← from_value t x
    let ys ← from_value_list t xs
    .ok (y :: ys)

end

/-- The universe of argument types for which nvim_client_api implements
IntoValue.  It is RetTy minus the unit type (there is no IntoValue impl for
()), with composites closed over the same restriction. -/
inductive EncTy where
  | bool : EncTy
  | value : EncTy
  | string : EncTy
  | i64 : EncTy
  | map : EncTy
  | vec (t : EncTy) : EncTy
  | pair (a b : EncTy) : EncTy
  | handle : EncTy

/-- The RetTy (hence the Rust type) an EncTy denotes. -/
def EncTy.toRet : EncTy → RetTy
  | .bool => .bool
  | .value => .value
  | .string => .string
  | .i64 => .i64
  | .map => .map
  | .vec t => .vec t.toRet
  | .pair a b => .pair a.toRet b.toRet
  | .handle => .handle

/-- The Rust type an EncTy stands for. -/
def interpE (t : EncTy) : Type := interp t.toRet

/-- IntoValue::into_value of nvim_client_api, one equation per impl: scalars
wrap in their tag, Map becomes Value::Map of its vec, the Vec impl maps
into_value over its elements in order into a Value::Array, the pair impl
builds a two-element Value::Array, and a handle wrapper returns its stored
data unchanged. -/
def into_value : (t : EncTy) → interpE t → Value
  | .bool, b => .boolean b
  | .value, v => v
  | .string, s => .str s
  | .i64, i => .integer i.val
  | .map, m => .map m
  | .vec t, l => .array (List.map (into_value t) l)
  | .pair a b, x => .array [into_value a x.1, into_value b x.2]
  | .handle, v => v

/-- The single response a stub's request resolves to: either the transport
failed before a response arrived (the future's error case, mapped by every
stub to ConnectionClosed), or a reply that is Ok(value) or an application
error Err(value). -/
inductive RpcResponse where
  | closed : RpcResponse
  | reply (r : Except Value Value) : RpcResponse

/-- convert_ret of nvim_client_api src/lib.rs: an Ok reply is decoded by
FromValue, an Err reply becomes Error::NvimReturnedError of the exact
value. -/
def convert_ret (t : RetTy) : Except Value Value → Except Error (interp t)
  | .ok x => from_value t x
  | .error x => .error (.NvimReturnedError x)

/-- The body shared by every stub the nvim_api_function!/nvim_api_method!
macros generate: `request(...).map_err(|_e| Error::ConnectionClosed)
.and_then(|v| convert_ret(v, client))`, as a function of the single response
the request resolves to. -/
def stub (t : RetTy) : RpcResponse → Except Error (interp t)
  | .closed => .error .ConnectionClosed
  | .reply r => convert_ret t r

/-! The generation half: crate api_gen (src/api.rs and src/main.rs).
Rust strings are modelled as `List Char` where the parser indexes and slices
them, and as `String` where the emitter concatenates them; all strings
involved are ASCII, so char positions and Rust's byte positions agree. -/

/-- ApiVersion of api_gen src/api.rs. -/
structure ApiVersion where
  major : Int
  minor : Int
  patch : Int
  api_level : Int
  api_compatible : Int
  api_prerelease : Bool

/-- ApiType of api_gen src/api.rs: the small type language of the API
description. -/
inductive ApiType where
  | nil : ApiType
  | boolean : ApiType
  | integer : ApiType
  | float : ApiType
  | string : ApiType
  | array : ApiType
  | arrayOf (t : ApiType) : ApiType
  | arrayOfLength (t : ApiType) (n : Int) : ApiType
  | dictionary : ApiType
  | buffer : ApiType
  | window : ApiType
  | tabpage : ApiType
  | object : ApiType
deriving DecidableEq, Repr

/-- Rust's `n as usize` on an i64, on a 64-bit target: two's-complement
reinterpretation. -/
def usize_of_i64 (n : Int) : Nat := (n % (2 ^ 64)).toNat

/-- ApiType::rust_owned_name of api_gen src/api.rs.  `ArrayOfLength(ty, num)`
formats `num as usize` repetitions of the element's name, joined by ", " and
wrapped in parentheses (`itertools::format`). -/
def rust_owned_name : ApiType → String
  | .nil => "()"
  | .boolean => "bool"
  | .integer => "i64"
  | .float => "f64"
  | .string => "String"
  | .array => "Vec<Value>"
  | .arrayOf t => "Vec<" ++ rust_owned_name t ++ ">"
  | .arrayOfLength t num =>
    "(" ++ String.intercalate ", "
      (List.replicate (usize_of_i64 num) (rust_owned_name t)) ++ ")"
  | .dictionary => "Map"
  | .object => "Value"
  | .buffer => "Buffer<\x27client>"
  | .window => "Window<\x27client>"
  | .tabpage => "Tabpage<\x27client>"

/-- The outcome of parsing one type-name string: a type, a serde
`unknown_variant` error carrying a string, or a Rust panic (the out-of-range
slice `&value[(open + 1)..close]` when the last close paren sits before the
first open paren). -/
inductive ParseResult where
  | ok (t : ApiType) : ParseResult
  | unknownType (s : List Char) : ParseResult
  | aborted : ParseResult
deriving DecidableEq, Repr

/-- str::trim — drop leading and trailing whitespace. -/
def trim (l : List Char) : List Char :=
  ((l.dropWhile Char.isWhitespace).reverse.dropWhile Char.isWhitespace).reverse

/-- str::find for a single char: the position of its first occurrence. -/
def firstIdx (c : Char) : List Char → Option Nat
  | [] => none
  | x :: xs => if x = c then some 0 else (firstIdx c xs).map (· + 1)

/-- str::rfind for a single char: the position of its last occurrence. -/
def lastIdx (c : Char) (l : List Char) : Option Nat :=
  (firstIdx c l.reverse).map (fun i => l.length - 1 - i)

/-- The slice `&s[a..b]`. -/
def slice (l : List Char) (a b : Nat) : List Char := (l.take b).drop a

/-- i64::from_str: an optional sign, then one or more ASCII digits, the value
within i64 range; anything else is an error (None). -/
def parseI64 (s : List Char) : Option Int :=
  let signed : Int × List Char :=
    match s with
    | '+' :: rest => (1, rest)
    | '-' :: rest => (-1, rest)
    | _ => (1, s)
  if signed.2 = [] then none
  else if signed.2.all Char.isDigit then
    let v : Int := signed.1 * (signed.2.foldl (fun acc c => acc * 10 + (c.toNat - 48)) 0 : Nat)
    if -(2 ^ 63) ≤ v ∧ v < 2 ^ 63 then some v else none
  else none

/-- ApiTypeVisitor::parse_primitive_type of api_gen src/api.rs: the fixed
exact-match table; any other string is an `unknown_variant` error carrying
that string. -/
def parse_primitive_type (value : List Char) : ParseResult :=
  if value = "void".data then .ok .nil
  else if value = "Nil".data then .ok .nil
  else if value = "Boolean".data then .ok .boolean
  else if value = "Integer".data then .ok .integer
  else if value = "Float".data then .ok .float
  else if value = "String".data then .ok .string
  else if value = "Array".data then .ok .array
  else if value = "Dictionary".data then .ok .dictionary
  else if value = "Buffer".data then .ok .buffer
  else if value = "Window".data then .ok .window
  else if value = "Tabpage".data then .ok .tabpage
  else if value = "Object".data then .ok .object
  else .unknownType value

/-- ApiTypeVisitor::parse_type of api_gen src/api.rs.  A string starting with
"ArrayOf" is split at its first open paren and last close paren; the interior
is split at its first comma if any; the element name is trimmed and resolved
as a primitive (an inner failure propagates, carrying the trimmed inner
string); a length is trimmed and parsed as i64, a failure there carrying the
whole original string; a missing paren carries the whole original string.
Any other string goes through the primitive table. -/
def parse_type (value : List Char) : ParseResult :=
  if List.isPrefixOf "ArrayOf".data value then
    match firstIdx '(' value, lastIdx ')' value with
    | some op, some cl =>
      if cl < op + 1 then .aborted
      else
        let args := slice value (op + 1) cl
        match firstIdx ',' args with
        | some comma =>
          let ty := args.take comma
          let num := args.drop (comma + 1)
          match parse_primitive_type (trim ty) with
          | .ok t =>
            match parseI64 (trim num) with
            | some n => .ok (.arrayOfLength t n)
            | none => .unknownType value
          | e => e
        | none =>
          match parse_primitive_type (trim args) with
          | .ok t => .ok (.arrayOf t)
          | e => e
    | _, _ => .unknownType value
  else parse_primitive_type value

/-- ApiFunctionParam of api_gen src/api.rs. -/
structure ApiFunctionParam where
  ty : ApiType
  name : String
deriving DecidableEq, Repr

/-- ApiFunction of api_gen src/api.rs. -/
structure ApiFunction where
  name : String
  parameters : List ApiFunctionParam
  return_type : ApiType
  method : Bool
  since : Int
  deprecated_since : Option Int
deriving DecidableEq, Repr

/-- ApiUiEvent of api_gen src/api.rs (parsed, unused by emission). -/
structure ApiUiEvent where
  name : String
  parameters : List ApiFunctionParam
  since : Int

/-- ApiTypeDecl of api_gen src/api.rs: its one field is the name prefix
(`prefix` in the source) grouping methods under the handle type. -/
structure ApiTypeDecl where
  pfx : String
deriving DecidableEq, Repr

/-- Api of api_gen src/api.rs.  Its `types` field is a HashMap from handle
type name to ApiTypeDecl; we carry the entries as a list, and the emitter
below additionally takes the order in which the HashMap's iterator yields
them (std's RandomState hashing makes that order unrelated to the input
bytes). -/
structure Api where
  version : ApiVersion
  functions : List ApiFunction
  ui_events : List ApiUiEvent
  types : List (String × ApiTypeDecl)

/-- str::starts_with: a byte-prefix test, which for valid UTF-8 (and in
particular for the ASCII names involved here) is a char-prefix test. -/
def str_starts_with (s p : String) : Bool := List.isPrefixOf p.data s.data

/-- The slice `&s[n..]` at a char boundary n: drop the first n chars. -/
def str_drop (s : String) (n : Nat) : String := ⟨s.data.drop n⟩

/-- ApiFunction::rust_fn_name of api_gen src/api.rs: asserts that the name
starts with the prefix (none = the assert fired, a panic), then strips it
once. -/
def rust_fn_name (f : ApiFunction) (pfx : String) : Option String :=
  if str_starts_with f.name pfx then some (str_drop f.name pfx.data.length)
  else none

/-- ApiFunction::macro_call of api_gen src/api.rs: pick the macro name by the
method flag, skip the receiver parameter of a method, render each remaining
parameter as `name: owned-type`, and format the whole call. -/
def macro_call (f : ApiFunction) (fn_pfx : String) : Option String :=
  let num_to_skip := if f.method then 1 else 0
  let macro_name := if f.method then "nvim_api_method" else "nvim_api_function"
  let param_strings := (f.parameters.drop num_to_skip).map
    (fun p => p.name ++ ": " ++ rust_owned_name p.ty)
  (rust_fn_name f fn_pfx).map (fun fn_name =>
    macro_name ++ "!(" ++ fn_name ++ ", \"" ++ f.name ++ "\", " ++
      String.intercalate ", " param_strings ++ "; " ++
      rust_owned_name f.return_type ++ ");")

/-- The functions do_main emits into the free-function block: not deprecated
and not a method (the loop's `if` over `api.functions`, order preserved). -/
def selectedFree (fns : List ApiFunction) : List ApiFunction :=
  fns.filter (fun f => f.deprecated_since.isNone && !f.method)

/-- The functions do_main emits into one handle type's block: not deprecated,
a method, and named with the type's declared prefix (order preserved). -/
def methodsFor (pfx : String) (fns : List ApiFunction) : List ApiFunction :=
  fns.filter (fun f => f.deprecated_since.isNone && f.method &&
    str_starts_with f.name pfx)

/-- The free-function block's body lines, in input order; none if a
macro_call panics. -/
def freeLines (fns : List ApiFunction) : Option (List String) :=
  (selectedFree fns).mapM (fun f => (macro_call f "nvim_").map (fun s => "\t" ++ s))

/-- One handle type's emitted block: the nvim_type! line, the impl header,
one line per matching method, and the closing brace. -/
def typeLines (nm : String) (d : ApiTypeDecl) (fns : List ApiFunction) :
    Option (List String) := do
  let ms ← (methodsFor d.pfx fns).mapM
    (fun f => (macro_call f d.pfx).map (fun s => "\t" ++ s))
  pure (("nvim_type!(" ++ nm ++ ");") ::
    ("impl<\x27client> " ++ nm ++ "<\x27client> \x7b") :: (ms ++ ["\x7d"]))

/-- Every line do_main writes, in order: the three use lines, the
NvimClient impl block with the free functions, then one block per handle
type in the order `typesOrder` in which the HashMap iterator yields the
`types` entries. -/
def generateLines (api : Api) (typesOrder : List (String × ApiTypeDecl)) :
    Option (List String) := do
  let free ← freeLines api.functions
  let tys ← typesOrder.mapM (fun e => typeLines e.1 e.2 api.functions)
  pure (["use futures::Future;", "use rmp_rpc::Value;", "use super::*;",
    "impl NvimClient \x7b"] ++ free ++ ["\x7d"] ++ tys.flatten)

/-- The full output text of do_main (each writeln! appends the line and a
newline). -/
def generate (api : Api) (typesOrder : List (String × ApiTypeDecl)) :
    Option String :=
  (generateLines api typesOrder).map (fun ls => String.join (ls.map (· ++ "\n")))

/-! Theorems about the runtime marshalling layer. -/

/-- Bind on a successful Except is the continuation. -/
theorem except_bind_ok {α β ε : Type} (x : α) (f : α → Except ε β) :
    (Except.ok x >>= f) = f x := rfl

/-- Bind on a failed Except propagates the error. -/
theorem except_bind_error {α β ε : Type} (e : ε) (f : α → Except ε β) :
    ((Except.error e : Except ε α) >>= f) = Except.error e := rfl

/-- Decoding an encoded list element-wise round-trips, given the round-trip
law for the element type. -/
theorem from_value_list_map (t : EncTy)
    (ih : ∀ x : interpE t, from_value t.toRet (into_value t x) = Except.ok x) :
    ∀ l : List (interpE t),
      from_value_list t.toRet (List.map (into_value t) l) = Except.ok l := by
  intro l
  induction l with
  | nil => rfl
  | cons x xs ihl =>
    show from_value_list t.toRet (into_value t x :: List.map (into_value t) xs) = _
    rw [from_value_list, ih x, except_bind_ok, ihl, except_bind_ok]

/-- C1: for every typed value x of a type representable by this type system
(boolean, 64-bit integer, owned string, dynamic value, association-list map,
sequence of a representable element type, fixed-arity pair, opaque handle),
decoding the encoding of x against the type of x succeeds and returns x. -/
theorem decode_encode_roundtrip : ∀ (t : EncTy) (x : interpE t),
    from_value t.toRet (into_value t x) = Except.ok x
  | .bool, _ => rfl
  | .value, v => by
    show from_value .value (into_value .value v) = Except.ok v
    rw [into_value, from_value]
  | .string, _ => rfl
  | .i64, i => by
    show from_value .i64 (.integer i.val) = Except.ok i
    rw [from_value]
    simp only [Value.as_i64]
    rw [dif_pos i.2]
    rfl
  | .map, _ => rfl
  | .vec t, l => by
    show from_value (.vec t.toRet) (.array (List.map (into_value t) l)) = Except.ok l
    rw [from_value]
    exact from_value_list_map t (fun x => decode_encode_roundtrip t x) l
  | .pair a b, x => by
    show from_value (.pair a.toRet b.toRet)
      (.array [into_value a x.1, into_value b x.2]) = Except.ok x
    rw [from_value, decode_encode_roundtrip a x.1, except_bind_ok,
      decode_encode_roundtrip b x.2, except_bind_ok]
    exact rfl
  | .handle, v => by
    show from_value .handle (into_value .handle v) = Except.ok v
    rw [into_value, from_value]

/-- Every error the element loop of the Vec impl produces is an
UnexpectedReturnType, given that this holds for the element type. -/
theorem from_value_list_errors_are_urt (t : RetTy)
    (ih : ∀ (v : Value) (e : Error), from_value t v = Except.error e →
      ∃ w, e = Error.UnexpectedReturnType w) :
    ∀ (l : List Value) (e : Error), from_value_list t l = Except.error e →
      ∃ w, e = Error.UnexpectedReturnType w := by
  intro l
  induction l with
  | nil => intro e h; exact Except.noConfusion h
  | cons x xs ihl =>
    intro e h
    replace h : (from_value t x >>= fun y => from_value_list t xs >>= fun ys =>
      Except.ok (y :: ys)) = Except.error e := h
    rcases hx : from_value t x with ex | y
    · rw [hx, except_bind_error] at h
      exact (Except.error.inj h) ▸ ih x ex hx
    · rw [hx, except_bind_ok] at h
      rcases hxs : from_value_list t xs with exs | ys
      · rw [hxs, except_bind_error] at h
        exact (Except.error.inj h) ▸ ihl exs hxs
      · rw [hxs, except_bind_ok] at h
        exact Except.noConfusion h

/-- Every error from_value produces, for every return type and every wire
value, is an UnexpectedReturnType wrapping some value. -/
theorem from_value_errors_are_urt : ∀ (t : RetTy) (v : Value) (e : Error),
    from_value t v = Except.error e → ∃ w, e = Error.UnexpectedReturnType w
  | .unit, v, e, h => by
    cases v <;>
      first
        | exact Except.noConfusion h
        | exact ⟨_, (Except.error.inj h).symm⟩
  | .bool, v, e, h => by
    cases v <;>
      first
        | exact Except.noConfusion h
        | exact ⟨_, (Except.error.inj h).symm⟩
  | .value, v, _, h => by
    rw [from_value] at h
    exact Except.noConfusion h
  | .string, v, e, h => by
    cases v <;>
      first
        | exact Except.noConfusion h
        | exact ⟨_, (Except.error.inj h).symm⟩
  | .i64, v, e, h => by
    cases v <;>
      first
        | exact Except.noConfusion h
        | exact ⟨_, (Except.error.inj h).symm⟩
        | skip
    case integer n =>
      rw [from_value] at h
      rcases hv : (Value.integer n).as_i64 with _ | i <;> rw [hv] at h
      · exact ⟨_, (Except.error.inj h).symm⟩
      · exact Except.noConfusion h
  | .map, v, e, h => by
    cases v <;>
      first
        | exact Except.noConfusion h
        | exact ⟨_, (Except.error.inj h).symm⟩
  | .vec t, v, e, h => by
    cases v <;>
      first
        | exact ⟨_, (Except.error.inj h).symm⟩
        | skip
    case array a =>
      exact from_value_list_errors_are_urt t
        (fun v e h => from_value_errors_are_urt t v e h) a e h
  | .pair a b, v, e, h => by
    match v with
    | .nil | .boolean _ | .integer _ | .f64 _ | .str _ | .bin _ | .map _ | .ext _ _ =>
      exact ⟨_, (Except.error.inj h).symm⟩
    | .array [] => exact ⟨_, (Except.error.inj h).symm⟩
    | .array [x] => exact ⟨_, (Except.error.inj h).symm⟩
    | .array (x :: y :: z :: rest) => exact ⟨_, (Except.error.inj h).symm⟩
    | .array [x, y] =>
      replace h : (from_value a x >>= fun xa => from_value b y >>= fun yb =>
        Except.ok (xa, yb)) = Except.error e := h
      rcases hx : from_value a x with ex | xa
      · rw [hx, except_bind_error] at h
        exact (Except.error.inj h) ▸ from_value_errors_are_urt a x ex hx
      · rw [hx, except_bind_ok] at h
        rcases hy : from_value b y with ey | yb
        · rw [hy, except_bind_error] at h
          exact (Except.error.inj h) ▸ from_value_errors_are_urt b y ey hy
        · rw [hy, except_bind_ok] at h
          exact Except.noConfusion h
  | .handle, v, _, h => by
    rw [from_value] at h
    exact Except.noConfusion h

/-- C2 (amended): a stub's single response is classified exactly as: a
transport-level failure yields ConnectionClosed; a response carrying an
application-level error value yields NvimReturnedError wrapping that exact
value; a successful response whose value fails decode yields the decode
error, which is always an UnexpectedReturnType wrapping the raw value at
which decoding first failed; otherwise the decoded typed value is
returned. -/
theorem stub_classification (t : RetTy) (v : Value) (e : Error) (x : interp t) :
    stub t .closed = Except.error .ConnectionClosed ∧
    stub t (.reply (.error v)) = Except.error (.NvimReturnedError v) ∧
    (from_value t v = Except.error e →
      stub t (.reply (.ok v)) = Except.error e ∧
      ∃ w, e = Error.UnexpectedReturnType w) ∧
    (from_value t v = Except.ok x → stub t (.reply (.ok v)) = Except.ok x) := by
  refine ⟨rfl, rfl, fun h => ⟨?_, from_value_errors_are_urt t v e h⟩, fun h => ?_⟩
  · show convert_ret t (.ok v) = Except.error e
    rw [convert_ret, h]
  · show convert_ret t (.ok v) = Except.ok x
    rw [convert_ret, h]

/-- Witness for stub_classification: at return type i64, an application
error value is wrapped verbatim, a transport failure maps to
ConnectionClosed, a non-integer success value yields UnexpectedReturnType,
and an integer success value decodes. -/
theorem stub_classification_witness :
    stub .i64 .closed = Except.error .ConnectionClosed ∧
    stub .i64 (.reply (.error (.str "boom"))) =
      Except.error (.NvimReturnedError (.str "boom")) ∧
    stub .i64 (.reply (.ok (.boolean true))) =
      Except.error (.UnexpectedReturnType (.boolean true)) ∧
    stub .i64 (.reply (.ok (.integer 7))) = Except.ok ⟨7, by norm_num⟩ := by
  have h := stub_classification .i64 (.boolean true)
    (.UnexpectedReturnType (.boolean true)) ⟨7, by norm_num⟩
  have h2 := stub_classification .i64 (.integer 7)
    (.UnexpectedReturnType (.boolean true)) ⟨7, by norm_num⟩
  have h3 := stub_classification .i64 (.str "boom")
    (.UnexpectedReturnType (.boolean true)) ⟨7, by norm_num⟩
  exact ⟨h.1, h3.2.1, (h.2.2.1 rfl).1, h2.2.2.2 rfl⟩

/-- Counterexample to C2 as stated: with return type Vec of i64 and the
successful response Array [Nil], the stub's error wraps the failing element
Nil, not the raw response value Array [Nil]. -/
theorem stub_wraps_element_not_raw :
    stub (.vec .i64) (.reply (.ok (.array [Value.nil]))) =
      Except.error (.UnexpectedReturnType Value.nil) ∧
    Error.UnexpectedReturnType Value.nil ≠
      Error.UnexpectedReturnType (Value.array [Value.nil]) := by
  refine ⟨rfl, fun h => ?_⟩
  simp at h

/-- Fail-fast of the element loop: with every element before x decoding
successfully and x failing, the whole decode fails with x's error. -/
theorem from_value_list_fail_fast (t : RetTy) :
    ∀ (pre : List Value) (x : Value) (rest : List Value) (e : Error),
      (∀ p ∈ pre, ∃ y, from_value t p = Except.ok y) →
      from_value t x = Except.error e →
      from_value_list t (pre ++ x :: rest) = Except.error e := by
  intro pre
  induction pre with
  | nil =>
    intro x rest e _ hx
    rw [List.nil_append, from_value_list, hx, except_bind_error]
  | cons p ps ih =>
    intro x rest e hpre hx
    obtain ⟨y, hy⟩ := hpre p (List.mem_cons_self p ps)
    rw [List.cons_append, from_value_list, hy, except_bind_ok,
      ih x rest e (fun q hq => hpre q (List.mem_cons_of_mem p hq)) hx,
      except_bind_error]

/-- C7: a dynamic Array of length 3 decoded against a fixed-arity-2 pair type
fails with a type-mismatch error (wrapping that Array); the same Array
decoded against a sequence type whose element type accepts each element
succeeds with exactly the 3 decoded elements in order; and sequence decode
fails fast, propagating the first failing element's error with no partial
result. -/
theorem array3_pair_vs_vec :
    (∀ (a b : RetTy) (v0 v1 v2 : Value),
      from_value (.pair a b) (.array [v0, v1, v2]) =
        Except.error (.UnexpectedReturnType (.array [v0, v1, v2]))) ∧
    (∀ (t : RetTy) (v0 v1 v2 : Value) (x0 x1 x2 : interp t),
      from_value t v0 = Except.ok x0 → from_value t v1 = Except.ok x1 →
      from_value t v2 = Except.ok x2 →
      from_value (.vec t) (.array [v0, v1, v2]) = Except.ok [x0, x1, x2]) ∧
    (∀ (t : RetTy) (pre : List Value) (x : Value) (rest : List Value) (e : Error),
      (∀ p ∈ pre, ∃ y, from_value t p = Except.ok y) →
      from_value t x = Except.error e →
      from_value (.vec t) (.array (pre ++ x :: rest)) = Except.error e) := by
  refine ⟨fun a b v0 v1 v2 => rfl, fun t v0 v1 v2 x0 x1 x2 h0 h1 h2 => ?_,
    fun t pre x rest e hpre hx => ?_⟩
  · rw [from_value, from_value_list, h0, except_bind_ok, from_value_list, h1,
      except_bind_ok, from_value_list, h2, except_bind_ok, from_value_list,
      except_bind_ok, except_bind_ok, except_bind_ok]
  · rw [from_value]
    exact from_value_list_fail_fast t pre x rest e hpre hx

/-- Witness for array3_pair_vs_vec: the Array [1, 2, 3] fails against the
pair type (i64, i64) wrapping the whole Array, decodes against Vec of i64 to
the three integers in order, and [1, Nil, 3] against Vec of i64 fails with
the error of the element Nil. -/
theorem array3_pair_vs_vec_witness :
    from_value (.pair .i64 .i64) (.array [.integer 1, .integer 2, .integer 3]) =
      Except.error (.UnexpectedReturnType
        (.array [.integer 1, .integer 2, .integer 3])) ∧
    from_value (.vec .i64) (.array [.integer 1, .integer 2, .integer 3]) =
      Except.ok [⟨1, by norm_num⟩, ⟨2, by norm_num⟩, ⟨3, by norm_num⟩] ∧
    from_value (.vec .i64) (.array [.integer 1, Value.nil, .integer 3]) =
      Except.error (.UnexpectedReturnType Value.nil) := by
  refine ⟨array3_pair_vs_vec.1 .i64 .i64 _ _ _,
    array3_pair_vs_vec.2.1 .i64 _ _ _ _ _ _ rfl rfl rfl,
    ?_⟩
  have := array3_pair_vs_vec.2.2 .i64 [.integer 1] Value.nil [.integer 3]
    (.UnexpectedReturnType Value.nil)
    (fun p hp => by
      simp only [List.mem_singleton] at hp
      exact ⟨⟨1, by norm_num⟩, by rw [hp]; rfl⟩)
    rfl
  simpa using this

/-- C10: decoding any dynamic wire value as a generated opaque handle type
always succeeds with no tag or shape check, storing the value unchanged, and
encoding the wrapper returns exactly that value. -/
theorem handle_decode_encode (v : Value) :
    from_value .handle v = Except.ok v ∧ into_value .handle v = v :=
  ⟨by rw [from_value], by rw [into_value]⟩

/-! Theorems about the generation half. -/

/-- The keys of parse_primitive_type's exact-match table. -/
def primitive_names : List (List Char) :=
  ["void".data, "Nil".data, "Boolean".data, "Integer".data, "Float".data,
    "String".data, "Array".data, "Dictionary".data, "Buffer".data,
    "Window".data, "Tabpage".data, "Object".data]

/-- A string off the primitive table fails primitive parsing, carrying
itself. -/
theorem parse_primitive_type_not_mem (s : List Char) (hs : s ∉ primitive_names) :
    parse_primitive_type s = .unknownType s := by
  simp only [primitive_names, List.mem_cons, List.not_mem_nil, or_false,
    not_or] at hs
  obtain ⟨h1, h2, h3, h4, h5, h6, h7, h8, h9, h10, h11, h12⟩ := hs
  simp [parse_primitive_type, h1, h2, h3, h4, h5, h6, h7, h8, h9, h10, h11, h12]

/-- A list is a prefix (in the Bool sense of List.isPrefixOf) of itself
followed by anything. -/
theorem isPrefixOf_append_self (l m : List Char) :
    List.isPrefixOf l (l ++ m) = true := by
  induction l with
  | nil => simp [List.isPrefixOf]
  | cons a as ih => simp [List.isPrefixOf, ih]

/-- firstIdx misses a character the list does not contain. -/
theorem firstIdx_eq_none_of_not_mem {c : Char} {l : List Char} (h : c ∉ l) :
    firstIdx c l = none := by
  induction l with
  | nil => rfl
  | cons x xs ih =>
    have hx : ¬ x = c := fun he => h (he ▸ List.mem_cons_self x xs)
    have hxs : c ∉ xs := fun hm => h (List.mem_cons_of_mem x hm)
    simp [firstIdx, hx, ih hxs]

/-- C4 (amended): an input string that is neither a primitive type name nor
an ArrayOf-prefixed form fails with an UnknownType error carrying the
original input verbatim (in particular "Frobnicate" carries exactly
"Frobnicate"); a compound form whose inner type name is unrecognized fails
carrying the trimmed inner string verbatim, not the original compound
string. -/
theorem parse_type_unknown_errors :
    (∀ s : List Char, s ∉ primitive_names →
      List.isPrefixOf "ArrayOf".data s = false → parse_type s = .unknownType s) ∧
    parse_type "Frobnicate".data = .unknownType "Frobnicate".data ∧
    (∀ inner : List Char,
      parse_primitive_type (trim inner) = .unknownType (trim inner) →
      '(' ∉ inner → ')' ∉ inner → ',' ∉ inner →
      parse_type ("ArrayOf(".data ++ (inner ++ [')'])) =
        .unknownType (trim inner)) := by
  refine ⟨fun s hs hpre => ?_, by decide, fun inner hinner hop hcl hcm => ?_⟩
  · rw [parse_type, hpre]
    exact parse_primitive_type_not_mem s hs
  · show parse_type (['A', 'r', 'r', 'a', 'y', 'O', 'f', '('] ++
      (inner ++ [')'])) = .unknownType (trim inner)
    have hpre : List.isPrefixOf "ArrayOf".data
        (['A', 'r', 'r', 'a', 'y', 'O', 'f', '('] ++ (inner ++ [')'])) = true := by
      show List.isPrefixOf "ArrayOf".data
        ("ArrayOf".data ++ ('(' :: (inner ++ [')']))) = true
      exact isPrefixOf_append_self _ _
    have hfirst : firstIdx '(' (['A', 'r', 'r', 'a', 'y', 'O', 'f', '('] ++
        (inner ++ [')'])) = some 7 := by
      simp [firstIdx]
    have hlast : lastIdx ')' (['A', 'r', 'r', 'a', 'y', 'O', 'f', '('] ++
        (inner ++ [')'])) = some (8 + inner.length) := by
      rw [lastIdx]
      simp [List.reverse_append, firstIdx, List.length_append]
      omega
    have hargs : slice (['A', 'r', 'r', 'a', 'y', 'O', 'f', '('] ++
        (inner ++ [')'])) (7 + 1) (8 + inner.length) = inner := by
      rw [slice]
      rw [List.take_append_eq_append_take, List.drop_append_eq_append_drop]
      simp
    have hcomma : firstIdx ',' inner = none := firstIdx_eq_none_of_not_mem hcm
    rw [parse_type, if_pos hpre, hfirst, hlast]
    dsimp only
    rw [if_neg (show ¬ (8 + inner.length < 7 + 1) by omega)]
    rw [hargs, hcomma]
    dsimp only
    rw [hinner]

/-- Counterexample to C4 as stated: parsing the compound form
"ArrayOf(Frobnicate)" fails with an error carrying the inner string
"Frobnicate", which is not the original compound string. -/
theorem parse_type_compound_error_not_verbatim :
    parse_type "ArrayOf(Frobnicate)".data = .unknownType "Frobnicate".data ∧
    "Frobnicate".data ≠ "ArrayOf(Frobnicate)".data := by
  exact ⟨by decide, by decide⟩

/-- Witness for parse_type_unknown_errors: a plain unknown name carries
itself, and a compound form with an unknown inner name carries the trimmed
inner string. -/
theorem parse_type_unknown_errors_witness :
    parse_type "Quux".data = .unknownType "Quux".data ∧
    parse_type ("ArrayOf(".data ++ (" Quux ".data ++ [')'])) =
      .unknownType "Quux".data := by
  constructor
  · exact parse_type_unknown_errors.1 "Quux".data (by decide) (by decide)
  · have h := parse_type_unknown_errors.2.2 " Quux ".data (by decide)
      (by decide) (by decide) (by decide)
    rw [h]
    decide

/-- C5 is violated by the code: i64 parsing accepts a leading minus sign, so
"ArrayOf(Integer, -3)" parses successfully to a fixed-length array type of
negative length instead of failing with an UnknownType error. -/
theorem parse_type_accepts_negative_length :
    parse_type "ArrayOf(Integer, -3)".data =
      .ok (.arrayOfLength .integer (-3)) := by decide

/-- C6: "ArrayOf(Integer)" parses to the array-of-Integer type,
"ArrayOf(Integer, 3)" parses to the fixed-length-3 array-of-Integer type,
whose owned representation is the tuple (i64, i64, i64); in general, for
every non-negative i64 length n the owned representation is a tuple of
exactly n copies of the element representation, the empty tuple for
n = 0. -/
theorem arrayof_parse_and_tuple_width :
    parse_type "ArrayOf(Integer)".data = .ok (.arrayOf .integer) ∧
    parse_type "ArrayOf(Integer, 3)".data = .ok (.arrayOfLength .integer 3) ∧
    rust_owned_name (.arrayOfLength .integer 3) = "(i64, i64, i64)" ∧
    (∀ (t : ApiType) (n : Int), 0 ≤ n → n < 2 ^ 63 →
      rust_owned_name (.arrayOfLength t n) =
        "(" ++ String.intercalate ", "
          (List.replicate n.toNat (rust_owned_name t)) ++ ")") ∧
    rust_owned_name (.arrayOfLength .integer 0) = "()" := by
  refine ⟨by decide, by decide, by decide, fun t n h0 h1 => ?_, by decide⟩
  rw [rust_owned_name, usize_of_i64,
    Int.emod_eq_of_lt h0 (lt_trans h1 (by norm_num))]

/-- Witness for arrayof_parse_and_tuple_width: length 2 over Boolean gives a
2-wide tuple of bool. -/
theorem arrayof_parse_and_tuple_width_witness :
    rust_owned_name (.arrayOfLength .boolean 2) =
      "(" ++ String.intercalate ", "
        (List.replicate (Int.toNat 2) (rust_owned_name .boolean)) ++ ")" :=
  arrayof_parse_and_tuple_width.2.2.2.1 .boolean 2 (by norm_num) (by norm_num)

/-- C8: for a handle type declared with prefix "nvim_buf_" and a
method-flagged, non-deprecated function named "nvim_buf_get_name", the
emitted call names the short name "get_name" (the full name with the prefix
stripped once) and drops the first (receiver) parameter; such a function is
selected into that handle type's group; and rust_fn_name aborts whenever a
function's name does not start with the expected prefix. -/
theorem method_emission (f : ApiFunction)
    (h1 : f.name = "nvim_buf_get_name") (h2 : f.method = true)
    (h3 : f.deprecated_since = none) :
    macro_call f "nvim_buf_" =
      some ("nvim_api_method!(get_name, \"nvim_buf_get_name\", " ++
        String.intercalate ", " ((f.parameters.drop 1).map
          (fun p => p.name ++ ": " ++ rust_owned_name p.ty)) ++ "; " ++
        rust_owned_name f.return_type ++ ");") ∧
    (∀ fns : List ApiFunction, f ∈ fns → f ∈ methodsFor "nvim_buf_" fns) ∧
    (∀ (g : ApiFunction) (p : String), str_starts_with g.name p = false →
      rust_fn_name g p = none) := by
  refine ⟨?_, fun fns hf => ?_, fun g p hp => ?_⟩
  · simp only [macro_call, rust_fn_name, h1, h2]
    rfl
  · refine List.mem_filter.mpr ⟨hf, ?_⟩
    rw [h1, h2, h3]
    rfl
  · rw [rust_fn_name, hp]
    rfl

/-- Witness for method_emission at a concrete function with one non-receiver
parameter, plus the abort for a mismatched prefix. -/
theorem method_emission_witness :
    macro_call ⟨"nvim_buf_get_name",
        [⟨.buffer, "buffer"⟩, ⟨.integer, "n"⟩], .string, true, 1, none⟩
      "nvim_buf_" =
      some "nvim_api_method!(get_name, \"nvim_buf_get_name\", n: i64; String);" ∧
    (⟨"nvim_buf_get_name", [⟨.buffer, "buffer"⟩, ⟨.integer, "n"⟩],
        .string, true, 1, none⟩ : ApiFunction) ∈
      methodsFor "nvim_buf_"
        [⟨"nvim_buf_get_name", [⟨.buffer, "buffer"⟩, ⟨.integer, "n"⟩],
          .string, true, 1, none⟩] ∧
    rust_fn_name ⟨"nvim_win_close", [], .nil, true, 1, none⟩ "nvim_buf_" =
      none := by
  have h := method_emission ⟨"nvim_buf_get_name",
    [⟨.buffer, "buffer"⟩, ⟨.integer, "n"⟩], .string, true, 1, none⟩ rfl rfl rfl
  refine ⟨?_, h.2.1 _ (by simp), h.2.2 _ "nvim_buf_" (by decide)⟩
  rw [h.1]
  rfl

/-- C9: a function whose deprecated_since is present is selected into no
emission group, free or handle-type, and every non-deprecated non-method
function in the input is selected into the free-function group (these
selections are exactly what generate emits). -/
theorem deprecated_never_emitted (fns : List ApiFunction) (f : ApiFunction) :
    (∀ d : Int, f.deprecated_since = some d →
      f ∉ selectedFree fns ∧ ∀ pfx : String, f ∉ methodsFor pfx fns) ∧
    (f ∈ fns → f.deprecated_since = none → f.method = false →
      f ∈ selectedFree fns) := by
  refine ⟨fun d hd => ⟨fun hmem => ?_, fun pfx hmem => ?_⟩,
    fun hf hd hm => ?_⟩
  · have := (List.mem_filter.mp hmem).2
    rw [hd] at this
    simp at this
  · have := (List.mem_filter.mp hmem).2
    rw [hd] at this
    simp at this
  · exact List.mem_filter.mpr ⟨hf, by rw [hd, hm]; rfl⟩

/-- Witness for deprecated_never_emitted: of two free functions sharing a
prefix, the deprecated one is not selected and the other is. -/
theorem deprecated_never_emitted_witness :
    (⟨"nvim_old_thing", [], .nil, false, 1, some 1⟩ : ApiFunction) ∉
      selectedFree [⟨"nvim_old_thing", [], .nil, false, 1, some 1⟩,
        ⟨"nvim_new_thing", [], .nil, false, 2, none⟩] ∧
    (⟨"nvim_new_thing", [], .nil, false, 2, none⟩ : ApiFunction) ∈
      selectedFree [⟨"nvim_old_thing", [], .nil, false, 1, some 1⟩,
        ⟨"nvim_new_thing", [], .nil, false, 2, none⟩] :=
  ⟨((deprecated_never_emitted _ _).1 1 rfl).1,
    (deprecated_never_emitted
      [⟨"nvim_old_thing", [], .nil, false, 1, some 1⟩,
        ⟨"nvim_new_thing", [], .nil, false, 2, none⟩]
      ⟨"nvim_new_thing", [], .nil, false, 2, none⟩).2 (by simp) rfl rfl⟩

/-- C3 is violated by the code: do_main iterates the types HashMap (std
RandomState hashing, so the iteration order is not a function of the input
bytes), and the emitted text differs between two orders of the same two
handle-type entries — evaluated here on an Api with two declared handle
types and no functions. -/
theorem generate_depends_on_hashmap_order :
    List.Perm
      [("Buffer", ApiTypeDecl.mk "nvim_buf_"),
        ("Window", ApiTypeDecl.mk "nvim_win_")]
      [("Window", ApiTypeDecl.mk "nvim_win_"),
        ("Buffer", ApiTypeDecl.mk "nvim_buf_")] ∧
    generate
        ⟨⟨0, 3, 1, 4, 0, false⟩, [], [],
          [("Buffer", ⟨"nvim_buf_"⟩), ("Window", ⟨"nvim_win_"⟩)]⟩
        [("Buffer", ⟨"nvim_buf_"⟩), ("Window", ⟨"nvim_win_"⟩)] ≠
      generate
        ⟨⟨0, 3, 1, 4, 0, false⟩, [], [],
          [("Buffer", ⟨"nvim_buf_"⟩), ("Window", ⟨"nvim_win_"⟩)]⟩
        [("Window", ⟨"nvim_win_"⟩), ("Buffer", ⟨"nvim_buf_"⟩)] := by
  exact ⟨by decide, by decide⟩

end NvimRs
